import Mathlib

/-!
Verification development for the bioquery-py workflow-execution engine
(`src/bioquery_agents`): the `StateGraph` runner (`graph.py`), the
`RetryPolicy` (`retry.py`), the `MemoryCheckpointer` (`checkpoint.py`),
the `MiddlewareStack` (`middleware.py`) and the `SubgraphExecutor`
(`subgraph.py`).

The Python state dictionaries are modelled as insertion-ordered
association lists over a JSON-like value universe `JValue`; `json.dumps`
serializability is modelled by the recursive predicate
`JValue.serializable` (a value is non-serializable exactly when it
contains a `pyobj` leaf, which stands for an arbitrary Python object that
`json.dumps` rejects).  On this universe `json.loads(json.dumps v)` is the
identity for serializable `v`, which is how the deep-copy in
`MemoryCheckpointer.save` is modelled.  Async functions are sequential in
the source (each `await` chains directly); they are modelled as pure
functions, with exceptions modelled by `Except Exc`.
-/

set_option autoImplicit false

namespace BioQuery

/-- A Python exception value: the names of the classes in its MRO
(so `except (T, ...)` clauses are `isinstance` tests against `ancestors`)
together with its `str(e)` message. -/
structure Exc where
  ancestors : List String
  msg : String
deriving Repr, DecidableEq

/-- `isinstance(e, tuple(types))`: some listed type occurs in the
exception's class ancestry. -/
def Exc.isInstanceOfAny (e : Exc) (types : List String) : Bool :=
  types.any fun t => t ∈ e.ancestors

mutual
/-- The JSON-like value universe of the state dictionaries.  `pyobj`
stands for a Python object that `json.dumps` cannot represent. -/
inductive JValue where
  | null : JValue
  | bool : Bool → JValue
  | int : Int → JValue
  | str : String → JValue
  | arr : JArr → JValue
  | obj : JObj → JValue
  | pyobj : Nat → JValue
deriving Repr, DecidableEq

/-- A JSON array of `JValue`s. -/
inductive JArr where
  | nil : JArr
  | cons : JValue → JArr → JArr
deriving Repr, DecidableEq

/-- A JSON object: ordered string-keyed fields. -/
inductive JObj where
  | nil : JObj
  | cons : String → JValue → JObj → JObj
deriving Repr, DecidableEq
end

mutual
/-- Whether `json.dumps` succeeds on the value: true unless some part of
the value is an unrepresentable Python object. -/
def JValue.serializable : JValue → Bool
  | .null => true
  | .bool _ => true
  | .int _ => true
  | .str _ => true
  | .arr xs => JArr.serializable xs
  | .obj fs => JObj.serializable fs
  | .pyobj _ => false

/-- Serializability of every element of an array. -/
def JArr.serializable : JArr → Bool
  | .nil => true
  | .cons v rest => JValue.serializable v && JArr.serializable rest

/-- Serializability of every field of an object. -/
def JObj.serializable : JObj → Bool
  | .nil => true
  | .cons _ v rest => JValue.serializable v && JObj.serializable rest
end

/-- Python truthiness of a value (`if value:`). -/
def JValue.truthy : JValue → Bool
  | .null => false
  | .bool b => b
  | .int n => if n = 0 then false else true
  | .str s => if s = "" then false else true
  | .arr .nil => false
  | .arr (.cons _ _) => true
  | .obj .nil => false
  | .obj (.cons _ _ _) => true
  | .pyobj _ => true

/-- Python `value == "some string"` for a string literal on the right:
true only when the value is that very string. -/
def JValue.isStrEq (v : JValue) (s : String) : Bool :=
  match v with
  | .str t => if t = s then true else false
  | _ => false

/-- A state dictionary: an insertion-ordered association list from string
keys to values, as a Python `dict[str, Any]` is. -/
abbrev State := List (String × JValue)

/-- Generic first-match lookup in an insertion-ordered association list
(`d.get(k)` / `d[k]`). -/
def lookupAssoc {κ α : Type} [DecidableEq κ] : List (κ × α) → κ → Option α
  | [], _ => none
  | (k', v) :: rest, k => if k' = k then some v else lookupAssoc rest k

/-- Generic update of an insertion-ordered association list
(`d[k] = v`): replaces the value in place when the key is present,
appends the pair otherwise, as a Python dict does. -/
def updateAssoc {κ α : Type} [DecidableEq κ] : List (κ × α) → κ → α → List (κ × α)
  | [], k, v => [(k, v)]
  | (k', v') :: rest, k, v =>
    if k' = k then (k, v) :: rest else (k', v') :: updateAssoc rest k v

/-- `state[k] = v` on a state dictionary. -/
def setKey (s : State) (k : String) (v : JValue) : State :=
  updateAssoc s k v

/-- Python `{**a, **b}`: start from `a`, then insert every item of `b`
in order. -/
def mergeState (a b : State) : State :=
  b.foldl (fun acc kv => setKey acc kv.1 kv.2) a

/-! ## `retry.py`: `RetryPolicy`

Backoff intervals are Python floats in the source; the claims under study
never depend on float rounding, so intervals are modelled as rationals.
`retry_on` is a tuple of exception classes in the source; it is modelled
by the list of their names, an exception `e` being caught exactly when
`e.isInstanceOfAny retry_on` (the `isinstance` test). -/

/-- `RetryPolicy` (`retry.py`): dataclass fields with their source
defaults. -/
structure RetryPolicy where
  max_attempts : Int := 3
  initial_interval : ℚ := 1
  backoff_multiplier : ℚ := 2
  max_interval : ℚ := 30
  retry_on : List String := ["Exception"]

/-- Observable outcome of `RetryPolicy.execute`: the returned state or
the raised exception, together with how many times the wrapped function
was invoked and the chronological list of backoff sleeps performed. -/
structure RetryResult where
  result : Except Exc State
  calls : Nat
  sleeps : List ℚ
deriving Repr

/-- The exception `RetryPolicy.execute` raises when its loop body never
ran (`raise RuntimeError(...)` at the end of `execute`). -/
def retryLoopExhaustedError : Exc :=
  ⟨["RuntimeError", "Exception", "BaseException"],
   "Retry loop completed without result or exception"⟩

/-- The `for attempt in range(self.max_attempts)` loop of
`RetryPolicy.execute`.  `remaining` counts the iterations left
(`max_attempts - attempt`); `f n` is the outcome of the `n`-th call of
the wrapped function; `interval` is the current backoff interval;
`last` is `last_exception`.  When an attempt fails with an exception
caught by `except self.retry_on` and it is not the final attempt, the
loop sleeps for `interval`, multiplies it (capped at `max_interval`) and
retries; an uncaught exception propagates at once.  After the loop, the
last exception is re-raised, or a `RuntimeError` when the body never
produced one. -/
def retryGo (p : RetryPolicy) (f : Nat → Except Exc State) :
    Nat → Nat → ℚ → Option Exc → Nat → List ℚ → RetryResult
  | 0, _, _, last, calls, sleeps =>
    match last with
    | some e => ⟨.error e, calls, sleeps⟩
    | none => ⟨.error retryLoopExhaustedError, calls, sleeps⟩
  | remaining + 1, idx, interval, _, calls, sleeps =>
    match f idx with
    | .ok st => ⟨.ok st, calls + 1, sleeps⟩
    | .error e =>
      if e.isInstanceOfAny p.retry_on then
        if remaining = 0 then
          retryGo p f remaining (idx + 1) interval (some e) (calls + 1) sleeps
        else
          retryGo p f remaining (idx + 1)
            (min (interval * p.backoff_multiplier) p.max_interval)
            (some e) (calls + 1) (sleeps ++ [interval])
      else
        ⟨.error e, calls + 1, sleeps⟩

/-- `RetryPolicy.execute(func, state)` (`retry.py`).  The wrapped
function is modelled as a family `f : Nat → Except Exc State` giving the
outcome of its `n`-th invocation (the source calls `func(state)` with
the same state each time, but `func` may be stateful). -/
def RetryPolicy.execute (p : RetryPolicy) (f : Nat → Except Exc State) : RetryResult :=
  retryGo p f p.max_attempts.toNat 0 p.initial_interval none 0 []

/-! ## `checkpoint.py`: `MemoryCheckpointer`

Thread identifiers are strings, following the source's `thread_id: str`
annotations.  Wall-clock instants (`datetime.now(UTC)`) are modelled as
natural numbers of seconds, passed explicitly to `save` and `load`; the
TTL is the `ttl_seconds` constructor argument. -/

/-- `MemoryCheckpointer._serialize(state)`: drop every key whose value
`json.dumps` rejects; keep the rest unchanged and in order. -/
def serializeState (s : State) : State :=
  s.filter fun kv => kv.2.serializable

/-- `MemoryCheckpointer`: the `_store` and `_timestamps` dictionaries and
the `_ttl` duration. -/
structure MemoryCheckpointer where
  store : List (String × State) := []
  timestamps : List (String × Nat) := []
  ttl : Nat := 3600
deriving Repr, DecidableEq

/-- `MemoryCheckpointer.save(thread_id, state)`: overwrite the entry for
the thread with `json.loads(json.dumps(self._serialize(state)))` — in
this universe the JSON round trip is the identity on the serialized
state, its effect being that the stored snapshot is a fresh deep copy —
and record the save instant. -/
def MemoryCheckpointer.save (mc : MemoryCheckpointer) (now : Nat)
    (thread_id : String) (state : State) : MemoryCheckpointer :=
  { mc with
    store := updateAssoc mc.store thread_id (serializeState state)
    timestamps := updateAssoc mc.timestamps thread_id now }

/-- `MemoryCheckpointer.delete(thread_id)`: remove both entries. -/
def MemoryCheckpointer.delete (mc : MemoryCheckpointer)
    (thread_id : String) : MemoryCheckpointer :=
  { mc with
    store := mc.store.filter fun kv => kv.1 ≠ thread_id
    timestamps := mc.timestamps.filter fun kv => kv.1 ≠ thread_id }

/-- `MemoryCheckpointer.load(thread_id)`: `None` when absent; otherwise
check the TTL against the recorded save instant, deleting the entry and
returning `None` when expired, else returning the stored snapshot.  The
`getD 0` totalizes the `self._timestamps[thread_id]` lookup, which in
the source can only be reached with the timestamp present (`save` keeps
the two dictionaries in step). -/
def MemoryCheckpointer.load (mc : MemoryCheckpointer) (now : Nat)
    (thread_id : String) : Option State × MemoryCheckpointer :=
  match lookupAssoc mc.store thread_id with
  | none => (none, mc)
  | some snapshot =>
    let ts := (lookupAssoc mc.timestamps thread_id).getD 0
    if now - ts > mc.ttl then
      (none, mc.delete thread_id)
    else
      (some snapshot, mc)

/-! ## `graph.py`: `Node`, `Edge`, `StateGraph` and `run`

Node handlers are `State → Except Exc State`; a conditional edge's
router returns a `JValue` (its annotation says `str`, but a router may
dynamically return `None`, which ends the run, so the loop variable
`current_node` is carried as a `JValue` with `JValue.null` standing for
Python `None`).  `run`'s `while` loop is driven by an explicit `fuel`
counter; exhausting it (`RunOutcome.fuelOut`) corresponds to a run that
has not yet returned.  Per `checkpoint.py`'s annotations the thread id
is a string; `threadIdOf` reads it from the state.  `run` also returns
the chronological list of `checkpointer.save` calls it performed, so
that what is (and is not) checkpointed at each step is observable. -/

/-- `NodeStatus` (`graph.py`). -/
inductive NodeStatus where
  | pending | running | success | failed | skipped
deriving Repr, DecidableEq

/-- The `.value` string of a `NodeStatus` member. -/
def NodeStatus.value : NodeStatus → String
  | .pending => "pending"
  | .running => "running"
  | .success => "success"
  | .failed => "failed"
  | .skipped => "skipped"

/-- `Node` (`graph.py`): name, handler, optional retry policy, and
`on_failure` — `"error"`, `"skip"`, or a target node name. -/
structure Node where
  name : String
  handler : State → Except Exc State
  retry_policy : Option RetryPolicy := none
  on_failure : String := "error"

/-- `Edge` (`graph.py`): `target` is `none` exactly when the edge is
conditional, in which case `condition` holds the router. -/
structure Edge where
  source : String
  target : Option String
  condition : Option (State → JValue) := none

/-- `StateGraph` (`graph.py`): the insertion-ordered `nodes` dict, the
`edges` list, and the optional entry point. -/
structure StateGraph where
  nodes : List (String × Node) := []
  edges : List Edge := []
  entry_point : Option String := none

/-- `StateGraph.add_node`: `self.nodes[name] = Node(...)` — replaces any
existing entry for `name` in place, else appends. -/
def StateGraph.add_node (g : StateGraph) (name : String)
    (handler : State → Except Exc State)
    (retry_policy : Option RetryPolicy := none)
    (on_failure : String := "error") : StateGraph :=
  { g with nodes := updateAssoc g.nodes name ⟨name, handler, retry_policy, on_failure⟩ }

/-- `StateGraph.add_edge(source, target)`. -/
def StateGraph.add_edge (g : StateGraph) (source target : String) : StateGraph :=
  { g with edges := g.edges ++ [⟨source, some target, none⟩] }

/-- `StateGraph.add_conditional_edge(source, router)`. -/
def StateGraph.add_conditional_edge (g : StateGraph) (source : String)
    (router : State → JValue) : StateGraph :=
  { g with edges := g.edges ++ [⟨source, none, some router⟩] }

/-- The scan of `StateGraph._get_next_node`: the first edge whose source
equals the current node. -/
def findEdge (edges : List Edge) (current : String) : Option Edge :=
  match edges with
  | [] => none
  | e :: rest => if e.source = current then some e else findEdge rest current

/-- `StateGraph._get_next_node(current, state)` as the value assigned to
`current_node`: the first matching edge's router result or fixed target;
`null` (Python `None`) when no edge matches. -/
def StateGraph.getNextNode (g : StateGraph) (current : String) (state : State) : JValue :=
  match findEdge g.edges current with
  | none => .null
  | some e =>
    match e.condition with
    | some router => router state
    | none =>
      match e.target with
      | some t => .str t
      | none => .null

/-- `StateGraph._execute_node(node, state)`: through the node's retry
policy when present, else the bare handler.  The retry policy invokes
`node.handler` with the same state on every attempt. -/
def execNode (node : Node) (state : State) : Except Exc State :=
  match node.retry_policy with
  | some p => (p.execute fun _ => node.handler state).result
  | none => node.handler state

/-- The `ValueError` `run` raises for an unknown current node. -/
def unknownNodeError (c : JValue) : Exc :=
  ⟨["ValueError", "Exception", "BaseException"],
   "Unknown node: " ++ (match c with | .str s => s | _ => "<non-string>")⟩

/-- The `ValueError` `run` raises when no entry point is set. -/
def entryPointError : Exc :=
  ⟨["ValueError", "Exception", "BaseException"],
   "Entry point not set. Call set_entry_point() first."⟩

/-- Outcome of `StateGraph.run`: the returned final state, a raised
exception, or fuel exhaustion (a run still in its loop). -/
inductive RunOutcome where
  | ok : State → RunOutcome
  | exc : Exc → RunOutcome
  | fuelOut : RunOutcome
deriving Repr, DecidableEq

/-- Whether the outcome is a raised exception. -/
def RunOutcome.isExc : RunOutcome → Bool
  | .exc _ => true
  | _ => false

/-- Result of `StateGraph.run`: its outcome, the checkpointer as left
behind, and the chronological `(thread_id, state)` arguments of every
`checkpointer.save` call made during the run. -/
structure RunResult where
  outcome : RunOutcome
  cp : Option MemoryCheckpointer
  saves : List (String × State)

/-- The guarded `checkpointer.save(thread_id, state)` of `run`
(`if checkpointer and thread_id:`): performs the save and reports it as
an event exactly when a checkpointer is present and the thread id is
truthy. -/
def saveIf (cp : Option MemoryCheckpointer) (tid : Option String) (now : Nat)
    (state : State) : Option MemoryCheckpointer × List (String × State) :=
  match cp, tid with
  | some mc, some t =>
    if t = "" then (some mc, []) else (some (mc.save now t state), [(t, state)])
  | some mc, none => (some mc, [])
  | none, _ => (none, [])

/-- `state.get("thread_id")`, read as a string per the checkpointer's
`thread_id: str` annotations (a non-string thread id is out of the
modelled contract and treated as absent). -/
def threadIdOf (state : State) : Option String :=
  match lookupAssoc state "thread_id" with
  | some (.str t) => some t
  | _ => none

/-- The `while current_node and current_node != "END"` loop of
`StateGraph.run`.  Each iteration: look up the node (raising for an
unknown one), record the current node and a running status, execute the
handler through `execNode`; on success mark success, checkpoint, and
route; on failure record the failed status and error text, then per
`on_failure` either checkpoint and re-raise (`"error"`), mark skipped,
checkpoint and route (`"skip"`), or jump to the named node without
checkpointing or routing (redirect). -/
def runLoop (g : StateGraph) (tid : Option String) (now : Nat) :
    Nat → JValue → State → Option MemoryCheckpointer → RunResult
  | 0, _, _, cp => ⟨.fuelOut, cp, []⟩
  | fuel + 1, c, s, cp =>
    if c.truthy then
      if c.isStrEq "END" then ⟨.ok s, cp, []⟩
      else
        match c with
        | .str name =>
          match lookupAssoc g.nodes name with
          | none => ⟨.exc (unknownNodeError c), cp, []⟩
          | some node =>
            let s1 := setKey (setKey s "_current_node" c) "_node_status" (.str NodeStatus.running.value)
            match execNode node s1 with
            | .ok s2 =>
              let s3 := setKey s2 "_node_status" (.str NodeStatus.success.value)
              let cpe := saveIf cp tid now s3
              let r := runLoop g tid now fuel (g.getNextNode name s3) s3 cpe.1
              ⟨r.outcome, r.cp, cpe.2 ++ r.saves⟩
            | .error e =>
              let s2 := setKey (setKey s1 "_node_status" (.str NodeStatus.failed.value)) "_error" (.str e.msg)
              if node.on_failure = "error" then
                let cpe := saveIf cp tid now s2
                ⟨.exc e, cpe.1, cpe.2⟩
              else if node.on_failure = "skip" then
                let s3 := setKey s2 "_node_status" (.str NodeStatus.skipped.value)
                let cpe := saveIf cp tid now s3
                let r := runLoop g tid now fuel (g.getNextNode name s3) s3 cpe.1
                ⟨r.outcome, r.cp, cpe.2 ++ r.saves⟩
              else
                runLoop g tid now fuel (.str node.on_failure) s2 cp
        | _ => ⟨.exc (unknownNodeError c), cp, []⟩
    else ⟨.ok s, cp, []⟩

/-- `StateGraph.run(initial_state, checkpointer)` (`graph.py`): raise
when no entry point is set; copy the initial state; read the thread id;
when a checkpointer and a truthy thread id are present, load any saved
snapshot and, when it is a truthy (non-empty) dict, merge it over the
initial state and resume at its recorded `_current_node` (defaulting to
the entry point); then drive the node loop. -/
def StateGraph.run (g : StateGraph) (fuel : Nat) (initial_state : State)
    (checkpointer : Option MemoryCheckpointer) (now : Nat) : RunResult :=
  match g.entry_point with
  | none => ⟨.exc entryPointError, checkpointer, []⟩
  | some entry =>
    let state := initial_state
    let tid := threadIdOf state
    match checkpointer, tid with
    | some mc, some t =>
      if t = "" then runLoop g tid now fuel (.str entry) state (some mc)
      else
        match mc.load now t with
        | (some saved, mc1) =>
          match saved with
          | [] => runLoop g tid now fuel (.str entry) state (some mc1)
          | _ :: _ =>
            let merged := mergeState state saved
            let c0 :=
              match lookupAssoc merged "_current_node" with
              | some v => v
              | none => .str entry
            runLoop g tid now fuel c0 merged (some mc1)
        | (none, mc1) => runLoop g tid now fuel (.str entry) state (some mc1)
    | some mc, none => runLoop g tid now fuel (.str entry) state (some mc)
    | none, _ => runLoop g tid now fuel (.str entry) state none

/-! ## `middleware.py`: `AgentMiddleware` and `MiddlewareStack`

The four hooks are modelled as pure functions (each `await` in the
source chains sequentially).  `pre_tool_call` returns `none` (Python
`None`) to proceed or `some` interrupt dict to interrupt; `args` is a
dict and a tool result an arbitrary value. -/

/-- An `AgentMiddleware`: its four overridable hooks. -/
structure AgentMiddleware where
  pre_invoke : State → State := id
  post_invoke : State → State := id
  pre_tool_call : String → State → Option State := fun _ _ => none
  post_tool_call : String → State → JValue → JValue := fun _ _ r => r

/-- `MiddlewareStack`: the ordered `_middlewares` list. -/
structure MiddlewareStack where
  middlewares : List AgentMiddleware := []

/-- `MiddlewareStack.apply_pre_invoke(state)`: fold the `pre_invoke`
hooks over the state in registration order. -/
def MiddlewareStack.apply_pre_invoke (stack : MiddlewareStack) (state : State) : State :=
  stack.middlewares.foldl (fun st mw => mw.pre_invoke st) state

/-- `MiddlewareStack.apply_post_invoke(state)`: fold the `post_invoke`
hooks over the state in reverse registration order. -/
def MiddlewareStack.apply_post_invoke (stack : MiddlewareStack) (state : State) : State :=
  stack.middlewares.reverse.foldl (fun st mw => mw.post_invoke st) state

/-- The loop of `MiddlewareStack.apply_pre_tool_call`: first non-`None`
hook result, else `None`. -/
def preToolCallGo (mws : List AgentMiddleware) (tool_name : String)
    (args : State) : Option State :=
  match mws with
  | [] => none
  | mw :: rest =>
    match mw.pre_tool_call tool_name args with
    | some r => some r
    | none => preToolCallGo rest tool_name args

/-- `MiddlewareStack.apply_pre_tool_call(tool_name, args)`. -/
def MiddlewareStack.apply_pre_tool_call (stack : MiddlewareStack)
    (tool_name : String) (args : State) : Option State :=
  preToolCallGo stack.middlewares tool_name args

/-- `MiddlewareStack.apply_post_tool_call(tool_name, args, result)`:
fold the `post_tool_call` hooks over the result in reverse registration
order. -/
def MiddlewareStack.apply_post_tool_call (stack : MiddlewareStack)
    (tool_name : String) (args : State) (result : JValue) : JValue :=
  stack.middlewares.reverse.foldl (fun r mw => mw.post_tool_call tool_name args r) result

/-! ## `subgraph.py`: `SubgraphExecutor.execute` -/

/-- `SubgraphExecutor`: the wrapped graph and its optional
checkpointer. -/
structure SubgraphExecutor where
  graph : StateGraph
  checkpointer : Option MemoryCheckpointer := none

/-- Result of `SubgraphExecutor.execute`: the returned record
(`success`, and `result` or `error`), or fuel exhaustion of the nested
run. -/
inductive ExecResult where
  | record : Bool → Option State → Option String → ExecResult
  | fuelOut : ExecResult
deriving Repr, DecidableEq

/-- The isolated substate of `SubgraphExecutor.execute`:
`{**initial_state}`, plus — when `parent_state and inherit_keys` are
both truthy — the listed keys copied from the parent when present. -/
def isolatedState (initial_state : State) (inherit_keys : Option (List String))
    (parent_state : Option State) : State :=
  match parent_state, inherit_keys with
  | some ps, some ks =>
    if ps = [] then initial_state
    else if ks = [] then initial_state
    else
      ks.foldl
        (fun st k =>
          match lookupAssoc ps k with
          | some v => setKey st k v
          | none => st)
        initial_state
  | _, _ => initial_state

/-- The dict comprehension
`{k: result.get(k) for k in return_keys if k in result}`. -/
def filterKeys (result : State) (return_keys : List String) : State :=
  return_keys.filterMap fun k => (lookupAssoc result k).map fun v => (k, v)

/-- `SubgraphExecutor.execute(initial_state, inherit_keys, return_keys,
parent_state)` (`subgraph.py`): run the wrapped graph on the isolated
state; on success return `{"success": True, "result": ...}` — filtered
to `return_keys` when that list is truthy (non-`None` and non-empty),
the full result otherwise; any exception raised by the nested run is
caught and turned into `{"success": False, "error": str(e)}`. -/
def SubgraphExecutor.execute (ex : SubgraphExecutor) (fuel : Nat) (now : Nat)
    (initial_state : State) (inherit_keys : Option (List String) := none)
    (return_keys : Option (List String) := none)
    (parent_state : Option State := none) : ExecResult :=
  let substate := isolatedState initial_state inherit_keys parent_state
  let r := ex.graph.run fuel substate ex.checkpointer now
  match r.outcome with
  | .fuelOut => .fuelOut
  | .exc e => .record false none (some e.msg)
  | .ok result =>
    match return_keys with
    | some ks =>
      if ks = [] then .record true (some result) none
      else .record true (some (filterKeys result ks)) none
    | none => .record true (some result) none

/-! ## Reference-semantics model of `MemoryCheckpointer`

The value-level model above cannot express Python aliasing, so the
copy/aliasing behaviour of `save` and `load` (claim about snapshot
independence) is modelled once more at the level of object references:
a heap maps addresses to dict contents, the caller's live state is the
dict at some address, `save` allocates a fresh address for the
deep-copied snapshot (`json.loads(json.dumps(...))` builds a new
object), and `load` returns the address held in `_store` — the stored
object itself, not a copy.  In-place mutation (`d[k] = v`) rewrites the
heap at an address. -/

/-- A heap address of a Python dict object. -/
abbrev Addr := Nat

/-- A heap: dict contents by address. -/
abbrev Heap := List (Addr × State)

/-- An address not used by the heap. -/
def freshAddr (h : Heap) : Addr :=
  (h.map Prod.fst).foldr max 0 + 1

/-- Read the dict object at an address. -/
def derefH (h : Heap) (a : Addr) : Option State :=
  lookupAssoc h a

/-- In-place mutation `heap[a][k] = v` of the dict at address `a`. -/
def mutateH (h : Heap) (a : Addr) (k : String) (v : JValue) : Heap :=
  updateAssoc h a (setKey ((lookupAssoc h a).getD []) k v)

/-- The reference-level `MemoryCheckpointer`: `_store` holds, per
thread, the address of the snapshot object. -/
structure HeapCheckpointer where
  store : List (String × Addr) := []
  timestamps : List (String × Nat) := []
  ttl : Nat := 3600
deriving Repr, DecidableEq

/-- Reference-level `MemoryCheckpointer.save`: serialize the live dict
found at address `a`, place the JSON round-tripped copy in a freshly
allocated object, and point `_store[thread_id]` at that new object. -/
def saveH (h : Heap) (mc : HeapCheckpointer) (now : Nat) (thread_id : String)
    (a : Addr) : Heap × HeapCheckpointer :=
  let live := (lookupAssoc h a).getD []
  let a2 := freshAddr h
  ((a2, serializeState live) :: h,
   { mc with
     store := updateAssoc mc.store thread_id a2
     timestamps := updateAssoc mc.timestamps thread_id now })

/-- Reference-level `MemoryCheckpointer.load`: after the TTL check,
`return self._store[thread_id]` hands back the stored object's address
itself — no copy is made. -/
def loadH (mc : HeapCheckpointer) (now : Nat) (thread_id : String) :
    Option Addr × HeapCheckpointer :=
  match lookupAssoc mc.store thread_id with
  | none => (none, mc)
  | some a =>
    let ts := (lookupAssoc mc.timestamps thread_id).getD 0
    if now - ts > mc.ttl then
      (none,
       { mc with
         store := mc.store.filter fun kv => kv.1 ≠ thread_id
         timestamps := mc.timestamps.filter fun kv => kv.1 ≠ thread_id })
    else
      (some a, mc)

/-! ## Shared lemmas about association-list dictionaries -/

theorem lookupAssoc_updateAssoc_self {κ α : Type} [DecidableEq κ]
    (l : List (κ × α)) (k : κ) (v : α) :
    lookupAssoc (updateAssoc l k v) k = some v := by
  induction l with
  | nil => simp [updateAssoc, lookupAssoc]
  | cons hd tl ih =>
    obtain ⟨k', v'⟩ := hd
    by_cases h : k' = k
    · simp [updateAssoc, lookupAssoc, h]
    · simp [updateAssoc, lookupAssoc, h, ih]

theorem lookupAssoc_updateAssoc_ne {κ α : Type} [DecidableEq κ]
    (l : List (κ × α)) (k : κ) (v : α) (k2 : κ) (h : k2 ≠ k) :
    lookupAssoc (updateAssoc l k v) k2 = lookupAssoc l k2 := by
  have h' : ¬k = k2 := fun h2 => h h2.symm
  induction l with
  | nil => simp [updateAssoc, lookupAssoc, h']
  | cons hd tl ih =>
    obtain ⟨k', v'⟩ := hd
    by_cases hk : k' = k
    · subst hk
      simp [updateAssoc, lookupAssoc, h']
    · simp only [updateAssoc, if_neg hk, lookupAssoc]
      by_cases hk2 : k' = k2
      · simp [hk2]
      · simp [hk2, ih]

theorem lookupAssoc_eq_none_of_not_mem {κ α : Type} [DecidableEq κ]
    (l : List (κ × α)) (k : κ) (h : k ∉ l.map Prod.fst) :
    lookupAssoc l k = none := by
  induction l with
  | nil => simp [lookupAssoc]
  | cons hd tl ih =>
    obtain ⟨k', v'⟩ := hd
    simp only [List.map_cons, List.mem_cons] at h
    push_neg at h
    have h1 : ¬k' = k := fun h2 => h.1 h2.symm
    simpa [lookupAssoc, h1] using ih h.2

theorem lookup_setKey_self (s : State) (k : String) (v : JValue) :
    lookupAssoc (setKey s k v) k = some v :=
  lookupAssoc_updateAssoc_self s k v

theorem lookup_setKey_ne (s : State) (k : String) (v : JValue) (k2 : String)
    (h : k2 ≠ k) :
    lookupAssoc (setKey s k v) k2 = lookupAssoc s k2 :=
  lookupAssoc_updateAssoc_ne s k v k2 h

theorem map_fst_updateAssoc_of_mem {κ α : Type} [DecidableEq κ]
    (l : List (κ × α)) (k : κ) (v : α) (h : k ∈ l.map Prod.fst) :
    (updateAssoc l k v).map Prod.fst = l.map Prod.fst := by
  induction l with
  | nil => simp at h
  | cons hd tl ih =>
    obtain ⟨k', v'⟩ := hd
    by_cases hk : k' = k
    · simp [updateAssoc, hk]
    · simp only [List.map_cons, List.mem_cons] at h
      rcases h with h | h
      · exact absurd h.symm hk
      · simp [updateAssoc, hk, ih h]

theorem map_fst_updateAssoc_of_not_mem {κ α : Type} [DecidableEq κ]
    (l : List (κ × α)) (k : κ) (v : α) (h : k ∉ l.map Prod.fst) :
    (updateAssoc l k v).map Prod.fst = l.map Prod.fst ++ [k] := by
  induction l with
  | nil => simp [updateAssoc]
  | cons hd tl ih =>
    obtain ⟨k', v'⟩ := hd
    simp only [List.map_cons, List.mem_cons] at h
    push_neg at h
    have h1 : ¬k' = k := fun h2 => h.1 h2.symm
    simp [updateAssoc, h1, ih h.2]

theorem nodup_map_fst_updateAssoc {κ α : Type} [DecidableEq κ]
    (l : List (κ × α)) (k : κ) (v : α) (h : (l.map Prod.fst).Nodup) :
    ((updateAssoc l k v).map Prod.fst).Nodup := by
  by_cases hm : k ∈ l.map Prod.fst
  · rwa [map_fst_updateAssoc_of_mem l k v hm]
  · rw [map_fst_updateAssoc_of_not_mem l k v hm]
    rw [List.nodup_append]
    refine ⟨h, List.nodup_singleton k, ?_⟩
    intro a ha hb
    rw [List.mem_singleton] at hb
    exact hm (hb ▸ ha)

theorem lookupAssoc_filter_eq_none {κ α : Type} [DecidableEq κ]
    (l : List (κ × α)) (p : κ × α → Bool) (k : κ) (v : α)
    (hnodup : (l.map Prod.fst).Nodup)
    (hlk : lookupAssoc l k = some v) (hp : p (k, v) = false) :
    lookupAssoc (l.filter p) k = none := by
  induction l with
  | nil => simp [lookupAssoc] at hlk
  | cons hd tl ih =>
    obtain ⟨k', v'⟩ := hd
    simp only [List.map_cons, List.nodup_cons] at hnodup
    by_cases hk : k' = k
    · subst hk
      simp only [lookupAssoc, if_true, Option.some_inj] at hlk
      subst hlk
      have hknot : k' ∉ (tl.filter p).map Prod.fst := by
        intro hmem
        rcases List.mem_map.mp hmem with ⟨kv, hkv, hfst⟩
        exact hnodup.1 (List.mem_map.mpr ⟨kv, List.mem_of_mem_filter hkv, hfst⟩)
      simp only [List.filter_cons, hp]
      simpa using lookupAssoc_eq_none_of_not_mem _ _ hknot
    · simp only [lookupAssoc, if_neg hk] at hlk
      have htl := ih hnodup.2 hlk
      by_cases hph : p (k', v')
      · simpa [List.filter_cons, hph, lookupAssoc, hk] using htl
      · simpa [List.filter_cons, hph] using htl

theorem find?_append_some {α : Type} (l1 l2 : List α) (p : α → Bool) (c : α)
    (h : l1.find? p = some c) : (l1 ++ l2).find? p = some c := by
  induction l1 with
  | nil => simp [List.find?] at h
  | cons hd tl ih =>
    cases hph : p hd with
    | true =>
      simp only [List.find?, hph] at h
      simp [List.find?, hph, h]
    | false =>
      simp only [List.find?, hph] at h
      simp only [List.cons_append, List.find?, hph]
      exact ih h

theorem find?_append_none {α : Type} (l1 l2 : List α) (p : α → Bool)
    (h : l1.find? p = none) : (l1 ++ l2).find? p = l2.find? p := by
  induction l1 with
  | nil => simp
  | cons hd tl ih =>
    cases hph : p hd with
    | true => simp [List.find?, hph] at h
    | false =>
      simp only [List.find?, hph] at h
      simp only [List.cons_append, List.find?, hph]
      exact ih h

/-! ## Claims -/

/-- C5: for every `RetryPolicy` admitting at least one attempt and every
handler whose first invocation raises a failure that is not an instance
of any type in the policy's `retry_on` set, `RetryPolicy.execute`
invokes the handler exactly once, performs no backoff sleep, and
propagates that failure unchanged to the caller. -/
theorem claim_C5_theorem (p : RetryPolicy) (f : Nat → Except Exc State) (e : Exc)
    (hmax : 1 ≤ p.max_attempts)
    (hf : f 0 = .error e)
    (hel : e.isInstanceOfAny p.retry_on = false) :
    p.execute f = ⟨.error e, 1, []⟩ := by
  unfold RetryPolicy.execute
  obtain ⟨n, hn⟩ : ∃ n, p.max_attempts.toNat = n + 1 :=
    ⟨p.max_attempts.toNat - 1, by omega⟩
  rw [hn]
  simp [retryGo, hf, hel]

/-- Witness for C5: a policy retrying only `TimeoutError` and a handler
always raising a `ValueError` — one call, no sleeps, the `ValueError`
surfaces. -/
theorem claim_C5_witness :
    RetryPolicy.execute { max_attempts := 3, retry_on := ["TimeoutError"] }
      (fun _ => .error ⟨["ValueError", "Exception", "BaseException"], "v"⟩) =
      ⟨.error ⟨["ValueError", "Exception", "BaseException"], "v"⟩, 1, []⟩ :=
  claim_C5_theorem _ _ _ (by decide) rfl (by decide)

/-- C10: for every `RetryPolicy` constructed with `max_attempts ≤ 0`,
`execute` never invokes the handler (zero calls) and raises
`RuntimeError("Retry loop completed without result or exception")`
rather than returning a state or surfacing a handler failure. -/
theorem claim_C10_theorem (p : RetryPolicy) (f : Nat → Except Exc State)
    (h : p.max_attempts ≤ 0) :
    p.execute f = ⟨.error retryLoopExhaustedError, 0, []⟩ := by
  unfold RetryPolicy.execute
  rw [Int.toNat_of_nonpos h]
  rfl

/-- Witness for C10: `max_attempts = 0` with a handler that would
succeed — the handler is never called and the `RuntimeError` is
raised. -/
theorem claim_C10_witness :
    RetryPolicy.execute { max_attempts := 0 } (fun _ => .ok [("x", .int 1)]) =
      ⟨.error retryLoopExhaustedError, 0, []⟩ :=
  claim_C10_theorem _ _ (by decide)

/-- C7: `apply_pre_invoke` chains the `pre_invoke` hooks in registration
order, each receiving the previous hook's output, and
`apply_post_invoke` chains the `post_invoke` hooks in reverse
registration order with the same chaining; with middlewares `A` then
`B`, the pre-invocation composite is `B.pre_invoke ∘ A.pre_invoke` and
the post-invocation composite is `A.post_invoke ∘ B.post_invoke`. -/
theorem claim_C7_theorem :
    (∀ (A B : AgentMiddleware) (s : State),
      MiddlewareStack.apply_pre_invoke ⟨[A, B]⟩ s = B.pre_invoke (A.pre_invoke s)) ∧
    (∀ (A B : AgentMiddleware) (s : State),
      MiddlewareStack.apply_post_invoke ⟨[A, B]⟩ s = A.post_invoke (B.post_invoke s)) ∧
    (∀ (l1 l2 : List AgentMiddleware) (s : State),
      MiddlewareStack.apply_pre_invoke ⟨l1 ++ l2⟩ s =
        MiddlewareStack.apply_pre_invoke ⟨l2⟩ (MiddlewareStack.apply_pre_invoke ⟨l1⟩ s)) ∧
    (∀ (l1 l2 : List AgentMiddleware) (s : State),
      MiddlewareStack.apply_post_invoke ⟨l1 ++ l2⟩ s =
        MiddlewareStack.apply_post_invoke ⟨l1⟩ (MiddlewareStack.apply_post_invoke ⟨l2⟩ s)) := by
  refine ⟨fun A B s => rfl, fun A B s => rfl, ?_, ?_⟩
  · intro l1 l2 s
    simp [MiddlewareStack.apply_pre_invoke, List.foldl_append]
  · intro l1 l2 s
    simp [MiddlewareStack.apply_post_invoke, List.reverse_append, List.foldl_append]

/-- C8: `apply_pre_tool_call` runs the `pre_tool_call` hooks in
registration order and returns the result of the first hook returning a
non-`None` interrupt, with the hooks after it playing no part in the
result (the result is the same for every suffix); when every hook
returns `None`, the chain completes with `None` and the tool call
proceeds. -/
theorem claim_C8_theorem :
    (∀ (l1 l2 : List AgentMiddleware) (m : AgentMiddleware)
        (tool_name : String) (args r : State),
      (∀ mw ∈ l1, mw.pre_tool_call tool_name args = none) →
      m.pre_tool_call tool_name args = some r →
      MiddlewareStack.apply_pre_tool_call ⟨l1 ++ m :: l2⟩ tool_name args = some r) ∧
    (∀ (l : List AgentMiddleware) (tool_name : String) (args : State),
      (∀ mw ∈ l, mw.pre_tool_call tool_name args = none) →
      MiddlewareStack.apply_pre_tool_call ⟨l⟩ tool_name args = none) := by
  constructor
  · intro l1 l2 m tool_name args r hnone hm
    induction l1 with
    | nil =>
      simp [MiddlewareStack.apply_pre_tool_call, preToolCallGo, hm]
    | cons hd tl ih =>
      have hhd : hd.pre_tool_call tool_name args = none := hnone hd (by simp)
      have htl : ∀ mw ∈ tl, mw.pre_tool_call tool_name args = none :=
        fun mw hmw => hnone mw (by simp [hmw])
      simpa [MiddlewareStack.apply_pre_tool_call, preToolCallGo, hhd]
        using ih htl
  · intro l tool_name args hnone
    induction l with
    | nil => rfl
    | cons hd tl ih =>
      have hhd : hd.pre_tool_call tool_name args = none := hnone hd (by simp)
      have htl : ∀ mw ∈ tl, mw.pre_tool_call tool_name args = none :=
        fun mw hmw => hnone mw (by simp [hmw])
      simpa [MiddlewareStack.apply_pre_tool_call, preToolCallGo, hhd]
        using ih htl

/-- A middleware whose `pre_tool_call` hook never interrupts. -/
def c8mwNone : AgentMiddleware := {}

/-- A middleware whose `pre_tool_call` hook always interrupts. -/
def c8mwStop : AgentMiddleware :=
  { pre_tool_call := fun _ _ => some [("interrupted", .bool true)] }

/-- A later middleware whose interrupt must never be reached. -/
def c8mwLate : AgentMiddleware :=
  { pre_tool_call := fun _ _ => some [("late", .bool true)] }

/-- Witness for C8: with a non-interrupting hook before an interrupting
one and another interrupting hook after it, the chain returns the first
interrupt; with only the non-interrupting hook, it returns `None`. -/
theorem claim_C8_witness :
    MiddlewareStack.apply_pre_tool_call ⟨[c8mwNone, c8mwStop, c8mwLate]⟩ "tool" [] =
      some [("interrupted", .bool true)] ∧
    MiddlewareStack.apply_pre_tool_call ⟨[c8mwNone]⟩ "tool" [] = none := by
  constructor
  · exact claim_C8_theorem.1 [c8mwNone] [c8mwLate] c8mwStop "tool" [] _
      (by intro mw hmw; simp only [List.mem_singleton] at hmw; subst hmw; rfl) rfl
  · exact claim_C8_theorem.2 [c8mwNone] "tool" []
      (by intro mw hmw; simp only [List.mem_singleton] at hmw; subst hmw; rfl)

/-- C6: for every `MemoryCheckpointer`, thread id and state, loading
within the TTL after `save(tid, s)` yields exactly `s` restricted to its
serializable keys, every non-serializable key of `s` being absent from
the loaded value; `save` is total, never failing on a non-serializable
value.  The state's keys are assumed distinct, as they are for any
Python dict. -/
theorem claim_C6_theorem (mc : MemoryCheckpointer) (now now2 : Nat)
    (tid : String) (s : State)
    (hnodup : (s.map Prod.fst).Nodup)
    (httl : now2 - now ≤ mc.ttl) :
    ((mc.save now tid s).load now2 tid).1 =
      some (s.filter fun kv => kv.2.serializable) ∧
    (∀ k v, lookupAssoc s k = some v → v.serializable = false →
      lookupAssoc (s.filter fun kv => kv.2.serializable) k = none) := by
  constructor
  · unfold MemoryCheckpointer.load MemoryCheckpointer.save
    simp only [lookupAssoc_updateAssoc_self]
    have hts : ¬ now2 - now > mc.ttl := by omega
    simp [hts, serializeState]
  · intro k v hlk hv
    exact lookupAssoc_filter_eq_none s (fun kv => kv.2.serializable) k v hnodup hlk hv

/-- Witness for C6: saving `{"a": 1, "b": <object>}` and loading ten
seconds later yields `{"a": 1}`; the non-serializable `"b"` is absent. -/
theorem claim_C6_witness :
    ((MemoryCheckpointer.save ⟨[], [], 3600⟩ 0 "t"
        [("a", .int 1), ("b", .pyobj 0)]).load 10 "t").1 =
      some [("a", JValue.int 1)] ∧
    lookupAssoc (([("a", JValue.int 1), ("b", JValue.pyobj 0)] : State).filter
      fun kv => kv.2.serializable) "b" = none := by
  have h := claim_C6_theorem ⟨[], [], 3600⟩ 0 10 "t"
    [("a", .int 1), ("b", .pyobj 0)] (by decide) (by decide)
  exact ⟨by rw [h.1]; rfl, h.2 "b" (.pyobj 0) rfl rfl⟩

/-- One `add_node` call: name, handler, retry policy, failure policy. -/
abbrev NodeCall := String × (State → Except Exc State) × Option RetryPolicy × String

/-- A sequence of `add_node` calls applied in order. -/
def applyAddNodes (g : StateGraph) (calls : List NodeCall) : StateGraph :=
  calls.foldl (fun g2 c => g2.add_node c.1 c.2.1 c.2.2.1 c.2.2.2) g

theorem applyAddNodes_lookup_of_no_call (g : StateGraph) (calls : List NodeCall)
    (name : String) (h : ∀ c ∈ calls, c.1 ≠ name) :
    lookupAssoc (applyAddNodes g calls).nodes name = lookupAssoc g.nodes name := by
  induction calls generalizing g with
  | nil => rfl
  | cons c0 cs ih =>
    have h0 : c0.1 ≠ name := h c0 (by simp)
    have hcs : ∀ c ∈ cs, c.1 ≠ name := fun c hc => h c (by simp [hc])
    calc lookupAssoc (applyAddNodes (g.add_node c0.1 c0.2.1 c0.2.2.1 c0.2.2.2) cs).nodes name
        = lookupAssoc (g.add_node c0.1 c0.2.1 c0.2.2.1 c0.2.2.2).nodes name := ih _ hcs
      _ = lookupAssoc g.nodes name := lookupAssoc_updateAssoc_ne _ _ _ _ (fun h2 => h0 h2.symm)

/-- C9: `add_node` with an existing name silently replaces that node's
handler, retry policy and failure policy in place: the new node is
found under the name, every other name is untouched, key uniqueness is
preserved, and after any sequence of `add_node` calls a name maps to
exactly the node of the last call bearing it. -/
theorem claim_C9_theorem :
    (∀ (g : StateGraph) (name : String) (handler : State → Except Exc State)
        (rp : Option RetryPolicy) (onf : String),
      lookupAssoc (g.add_node name handler rp onf).nodes name =
        some ⟨name, handler, rp, onf⟩) ∧
    (∀ (g : StateGraph) (name : String) (handler : State → Except Exc State)
        (rp : Option RetryPolicy) (onf : String) (m : String), m ≠ name →
      lookupAssoc (g.add_node name handler rp onf).nodes m = lookupAssoc g.nodes m) ∧
    (∀ (g : StateGraph) (name : String) (handler : State → Except Exc State)
        (rp : Option RetryPolicy) (onf : String),
      (g.nodes.map Prod.fst).Nodup →
      ((g.add_node name handler rp onf).nodes.map Prod.fst).Nodup) ∧
    (∀ (g : StateGraph) (calls : List NodeCall) (name : String) (c : NodeCall),
      calls.reverse.find? (fun c2 => c2.1 = name) = some c →
      lookupAssoc (applyAddNodes g calls).nodes name =
        some ⟨c.1, c.2.1, c.2.2.1, c.2.2.2⟩) := by
  refine ⟨?_, ?_, ?_, ?_⟩
  · intro g name handler rp onf
    exact lookupAssoc_updateAssoc_self _ _ _
  · intro g name handler rp onf m hm
    exact lookupAssoc_updateAssoc_ne _ _ _ _ hm
  · intro g name handler rp onf h
    exact nodup_map_fst_updateAssoc _ _ _ h
  · intro g calls name c hfind
    induction calls generalizing g with
    | nil => simp [List.find?] at hfind
    | cons c0 cs ih =>
      rw [List.reverse_cons] at hfind
      cases hcs : cs.reverse.find? (fun c2 => c2.1 = name) with
      | some c2 =>
        rw [find?_append_some _ _ _ _ hcs] at hfind
        rw [Option.some_inj] at hfind
        subst hfind
        exact ih _ hcs
      | none =>
        rw [find?_append_none _ _ _ hcs] at hfind
        have hnone : ∀ c2 ∈ cs, c2.1 ≠ name := by
          intro c2 hc2 heq
          have := List.find?_eq_none.mp hcs c2 (List.mem_reverse.mpr hc2)
          simp [heq] at this
        cases hp : (decide (c0.1 = name)) with
        | true =>
          have hc0 : c0.1 = name := of_decide_eq_true hp
          simp only [List.find?, hp, Option.some_inj] at hfind
          rw [← hfind]
          have hstep : lookupAssoc (applyAddNodes g (c0 :: cs)).nodes name =
              lookupAssoc
                (applyAddNodes (g.add_node c0.1 c0.2.1 c0.2.2.1 c0.2.2.2) cs).nodes
                name := rfl
          rw [hstep, applyAddNodes_lookup_of_no_call _ _ _ hnone, hc0]
          exact lookupAssoc_updateAssoc_self _ _ _
        | false =>
          simp [List.find?, hp] at hfind

/-- First `add_node` call of the C9 witness. -/
def c9call1 : NodeCall := ("n", fun s => .ok s, none, "error")

/-- Second `add_node` call of the C9 witness, same name, different
handler and failure policy. -/
def c9call2 : NodeCall := ("n", fun s => .ok (setKey s "v" (.int 2)), none, "skip")

/-- Witness for C9: after adding `"n"` twice, the graph holds exactly
the second call's node under `"n"`, and a lookup of a different name is
unaffected by an `add_node`. -/
theorem claim_C9_witness :
    lookupAssoc (applyAddNodes {} [c9call1, c9call2]).nodes "n" =
      some ⟨c9call2.1, c9call2.2.1, c9call2.2.2.1, c9call2.2.2.2⟩ ∧
    lookupAssoc (StateGraph.add_node {} "n" (fun s => .ok s) none "error").nodes "m" =
      lookupAssoc (StateGraph.nodes {}) "m" := by
  constructor
  · exact claim_C9_theorem.2.2.2 {} [c9call1, c9call2] "n" c9call2 rfl
  · exact claim_C9_theorem.2.1 {} "n" (fun s => .ok s) none "error" "m" (by decide)

/-- Graph for the C2 counterexample: a single node with no outgoing
edge at all. -/
def c2g : StateGraph :=
  { nodes := [("a", ⟨"a", fun s => .ok s, none, "error"⟩)]
    edges := []
    entry_point := some "a" }

/-- Counterexample to C2 as stated: in `c2g` no edge has source `"a"`
(the edge list is empty), yet after executing `"a"` the run does not
signal any error — it returns the state normally. -/
theorem claim_C2_counterexample :
    (c2g.run 3 [] none 0).outcome =
      RunOutcome.ok [("_current_node", JValue.str "a"), ("_node_status", JValue.str "success")] ∧
    (c2g.run 3 [] none 0).outcome.isExc = false ∧
    c2g.edges = [] :=
  ⟨rfl, rfl, rfl⟩

/-- C2 amended: when, after the current node executes successfully, no
edge in the edge list has a source equal to the current node (or the
first matching edge's router returns `None`) — that is,
`_get_next_node` yields `None` — the run loop exits and `run` returns
the state normally; no unreachable-state error is raised (an exception
arises only for an unknown node name). -/
theorem claim_C2_theorem (g : StateGraph) (tid : Option String) (now fuel : Nat)
    (cname : String) (s : State) (cp : Option MemoryCheckpointer)
    (node : Node) (s2 : State)
    (hne : cname ≠ "") (hnend : cname ≠ "END")
    (hnode : lookupAssoc g.nodes cname = some node)
    (hexec : execNode node (setKey (setKey s "_current_node" (.str cname))
      "_node_status" (.str NodeStatus.running.value)) = .ok s2)
    (hnext : g.getNextNode cname
      (setKey s2 "_node_status" (.str NodeStatus.success.value)) = .null) :
    (runLoop g tid now (fuel + 2) (.str cname) s cp).outcome =
      .ok (setKey s2 "_node_status" (.str NodeStatus.success.value)) := by
  simp only [runLoop, JValue.truthy, JValue.isStrEq, if_neg hne, if_neg hnend,
    if_true, if_false, hnode, hexec, hnext]
  simp

/-- Graph for the C2 witness: one successful node, no edges. -/
def c2wg : StateGraph :=
  { nodes := [("a", ⟨"a", fun s => .ok s, none, "error"⟩)]
    edges := []
    entry_point := some "a" }

/-- Witness for C2 (amended): a concrete one-node run with no edges
ends with a normal `ok` outcome. -/
theorem claim_C2_witness :
    (runLoop c2wg none 0 2 (.str "a") [] none).outcome =
      RunOutcome.ok [("_current_node", JValue.str "a"), ("_node_status", JValue.str "success")] :=
  claim_C2_theorem c2wg none 0 0 "a" [] none ⟨"a", fun s => .ok s, none, "error"⟩
    [("_current_node", JValue.str "a"), ("_node_status", JValue.str "running")]
    (by decide) (by decide) rfl rfl rfl

theorem mem_saveIf_state (cp : Option MemoryCheckpointer) (tid : Option String)
    (now : Nat) (st : State) (ev : String × State)
    (h : ev ∈ (saveIf cp tid now st).2) : ev.2 = st := by
  rcases cp with _ | mc
  · simp [saveIf] at h
  · rcases tid with _ | t
    · simp [saveIf] at h
    · by_cases ht : t = ""
      · simp [saveIf, ht] at h
      · simp [saveIf, ht] at h
        simp [h]

theorem runLoop_saves_status (g : StateGraph) (tid : Option String) (now : Nat) :
    ∀ (fuel : Nat) (c : JValue) (s : State) (cp : Option MemoryCheckpointer)
      (ev : String × State), ev ∈ (runLoop g tid now fuel c s cp).saves →
      (lookupAssoc ev.2 "_node_status" = some (.str NodeStatus.success.value) ∨
       lookupAssoc ev.2 "_node_status" = some (.str NodeStatus.failed.value) ∨
       lookupAssoc ev.2 "_node_status" = some (.str NodeStatus.skipped.value)) := by
  intro fuel
  induction fuel with
  | zero =>
    intro c s cp ev hev
    simp [runLoop] at hev
  | succ n ih =>
    intro c s cp ev hev
    simp only [runLoop] at hev
    by_cases htr : c.truthy
    · rw [if_pos htr] at hev
      by_cases hend : c.isStrEq "END"
      · rw [if_pos hend] at hev
        simp at hev
      · rw [if_neg hend] at hev
        cases c with
        | str name =>
          cases hnd : lookupAssoc g.nodes name with
          | none =>
            simp only [hnd] at hev
            simp at hev
          | some node =>
            simp only [hnd] at hev
            cases hex : execNode node (setKey (setKey s "_current_node" (.str name))
                "_node_status" (.str NodeStatus.running.value)) with
            | ok s2 =>
              simp only [hex] at hev
              rw [List.mem_append] at hev
              rcases hev with hev | hev
              · have h2 := mem_saveIf_state _ _ _ _ _ hev
                left
                rw [h2]
                exact lookup_setKey_self _ _ _
              · exact ih _ _ _ _ hev
            | error e =>
              simp only [hex] at hev
              by_cases herr : node.on_failure = "error"
              · rw [if_pos herr] at hev
                have h2 := mem_saveIf_state _ _ _ _ _ hev
                right; left
                rw [h2]
                rw [lookup_setKey_ne _ _ _ _ (by decide)]
                exact lookup_setKey_self _ _ _
              · rw [if_neg herr] at hev
                by_cases hskip : node.on_failure = "skip"
                · rw [if_pos hskip] at hev
                  rw [List.mem_append] at hev
                  rcases hev with hev | hev
                  · have h2 := mem_saveIf_state _ _ _ _ _ hev
                    right; right
                    rw [h2]
                    exact lookup_setKey_self _ _ _
                  · exact ih _ _ _ _ hev
                · rw [if_neg hskip] at hev
                  exact ih _ _ _ _ hev
        | null => simp at hev
        | bool b => simp at hev
        | int m => simp at hev
        | arr a => simp at hev
        | obj o => simp at hev
        | pyobj p => simp at hev
    · rw [if_neg htr] at hev
      simp at hev

/-- C1 amended: checkpoint writes during `run` happen only with a
recorded node status of `success`, `failed` (a propagating failure) or
`skipped` — and, contrary to the claim, a failing node whose policy is
skip DOES write a checkpoint for that step: the redirect branch alone
passes the checkpointer on unchanged with no save event, while the skip
branch saves the skipped-status state before routing. -/
theorem claim_C1_theorem :
    (∀ (g : StateGraph) (tid : Option String) (now fuel : Nat) (c : JValue)
        (s : State) (cp : Option MemoryCheckpointer) (ev : String × State),
      ev ∈ (runLoop g tid now fuel c s cp).saves →
      (lookupAssoc ev.2 "_node_status" = some (.str NodeStatus.success.value) ∨
       lookupAssoc ev.2 "_node_status" = some (.str NodeStatus.failed.value) ∨
       lookupAssoc ev.2 "_node_status" = some (.str NodeStatus.skipped.value))) ∧
    (∀ (g : StateGraph) (tid : Option String) (now fuel : Nat)
        (cname : String) (s : State) (cp : Option MemoryCheckpointer)
        (node : Node) (e : Exc),
      cname ≠ "" → cname ≠ "END" →
      lookupAssoc g.nodes cname = some node →
      execNode node (setKey (setKey s "_current_node" (.str cname))
        "_node_status" (.str NodeStatus.running.value)) = .error e →
      node.on_failure ≠ "error" → node.on_failure ≠ "skip" →
      runLoop g tid now (fuel + 1) (.str cname) s cp =
        runLoop g tid now fuel (.str node.on_failure)
          (setKey (setKey (setKey (setKey s "_current_node" (.str cname))
            "_node_status" (.str NodeStatus.running.value))
            "_node_status" (.str NodeStatus.failed.value)) "_error" (.str e.msg)) cp) ∧
    (∀ (g : StateGraph) (t : String) (now fuel : Nat)
        (cname : String) (s : State) (mc : MemoryCheckpointer)
        (node : Node) (e : Exc) (s3v : State),
      t ≠ "" → cname ≠ "" → cname ≠ "END" →
      lookupAssoc g.nodes cname = some node →
      execNode node (setKey (setKey s "_current_node" (.str cname))
        "_node_status" (.str NodeStatus.running.value)) = .error e →
      node.on_failure = "skip" →
      s3v = setKey (setKey (setKey (setKey (setKey s "_current_node" (.str cname))
        "_node_status" (.str NodeStatus.running.value))
        "_node_status" (.str NodeStatus.failed.value)) "_error" (.str e.msg))
        "_node_status" (.str NodeStatus.skipped.value) →
      runLoop g (some t) now (fuel + 1) (.str cname) s (some mc) =
        ⟨(runLoop g (some t) now fuel (g.getNextNode cname s3v) s3v
            (some (mc.save now t s3v))).outcome,
         (runLoop g (some t) now fuel (g.getNextNode cname s3v) s3v
            (some (mc.save now t s3v))).cp,
         (t, s3v) :: (runLoop g (some t) now fuel (g.getNextNode cname s3v) s3v
            (some (mc.save now t s3v))).saves⟩) := by
  refine ⟨?_, ?_, ?_⟩
  · intro g tid now fuel c s cp ev hev
    exact runLoop_saves_status g tid now fuel c s cp ev hev
  · intro g tid now fuel cname s cp node e hne hnend hnode hexec herr hskip
    simp only [runLoop, JValue.truthy, JValue.isStrEq, if_neg hne, if_neg hnend,
      hnode, hexec, if_neg herr, if_neg hskip]
    simp
  · intro g t now fuel cname s mc node e s3v ht hne hnend hnode hexec hskip hs3
    subst hs3
    have herr : node.on_failure ≠ "error" := by rw [hskip]; decide
    simp only [runLoop, JValue.truthy, JValue.isStrEq, if_neg hne, if_neg hnend,
      hnode, hexec, if_neg herr, if_pos hskip, saveIf, if_neg ht]
    simp

/-- The failure raised by the C1 graphs' failing node. -/
def c1boom : Exc := ⟨["ValueError", "Exception", "BaseException"], "boom"⟩

/-- Graph for the C1 counterexample and witness: one always-failing node
with failure policy skip, its edge going straight to `END`. -/
def c1g : StateGraph :=
  { nodes := [("fail", ⟨"fail", fun _ => .error c1boom, none, "skip"⟩)]
    edges := [⟨"fail", some "END", none⟩]
    entry_point := some "fail" }

/-- Initial state for the C1 run: a thread id is present. -/
def c1init : State := [("thread_id", .str "t")]

/-- The empty checkpointer the C1 run starts from. -/
def c1mc0 : MemoryCheckpointer := ⟨[], [], 3600⟩

/-- The state the C1 skip step checkpoints. -/
def c1saved : State :=
  [("thread_id", .str "t"), ("_current_node", .str "fail"),
   ("_node_status", .str "skipped"), ("_error", .str "boom")]

/-- Counterexample to C1 as stated: running `c1g` (whose single step is
a skip-policy failure) with a checkpointer and thread id `"t"` performs
a checkpoint save for that very step — the save trace holds the
skipped-status state and the checkpoint store is no longer the empty
store it started as. -/
theorem claim_C1_counterexample :
    (c1g.run 5 c1init (some c1mc0) 0).saves = [("t", c1saved)] ∧
    lookupAssoc c1saved "_node_status" = some (JValue.str "skipped") ∧
    (c1g.run 5 c1init (some c1mc0) 0).cp =
      some ⟨[("t", c1saved)], [("t", 0)], 3600⟩ ∧
    (some (⟨[("t", c1saved)], [("t", 0)], 3600⟩ : MemoryCheckpointer) :
      Option MemoryCheckpointer) ≠ some c1mc0 :=
  ⟨rfl, rfl, rfl, by decide⟩

/-- Witness for C1 (amended): the skip step of `c1g` emits exactly one
save event, carrying the skipped-status state. -/
theorem claim_C1_witness :
    (runLoop c1g (some "t") 0 1 (.str "fail") c1init (some c1mc0)).saves =
      [("t", c1saved)] := by
  have h := claim_C1_theorem.2.2 c1g "t" 0 0 "fail" c1init c1mc0
    ⟨"fail", fun _ => .error c1boom, none, "skip"⟩ c1boom c1saved
    (by decide) (by decide) (by decide) rfl rfl rfl rfl
  rw [congrArg RunResult.saves h]
  rfl

theorem le_foldr_max (l : List Nat) (a : Nat) (h : a ∈ l) : a ≤ l.foldr max 0 := by
  induction l with
  | nil => simp at h
  | cons b tl ih =>
    rcases List.mem_cons.mp h with h | h
    · subst h
      exact le_max_left _ _
    · exact (ih h).trans (le_max_right _ _)

theorem freshAddr_not_mem (h : Heap) : freshAddr h ∉ h.map Prod.fst := by
  intro hm
  have h1 := le_foldr_max _ _ hm
  unfold freshAddr at h1
  omega

/-- C3 amended: after `save(tid, s)` the stored snapshot lives at a
fresh address holding the serialized live contents, so later in-place
mutation of the caller's live dict cannot change it; but `load` hands
back the stored snapshot object itself — the very address in `_store` —
not an independent copy, so in-place mutation of a value returned by
`load` does change what a subsequent `load` returns. -/
theorem claim_C3_theorem (h : Heap) (mc : HeapCheckpointer) (now : Nat)
    (tid : String) (a : Addr) (hlive : a ∈ h.map Prod.fst) :
    lookupAssoc (saveH h mc now tid a).2.store tid = some (freshAddr h) ∧
    freshAddr h ≠ a ∧
    (∀ now2, now2 - now ≤ mc.ttl →
      (loadH (saveH h mc now tid a).2 now2 tid).1 = some (freshAddr h)) ∧
    (∀ (k : String) (v : JValue),
      derefH (mutateH (saveH h mc now tid a).1 a k v) (freshAddr h) =
        derefH (saveH h mc now tid a).1 (freshAddr h)) ∧
    derefH (saveH h mc now tid a).1 (freshAddr h) =
      some (serializeState ((lookupAssoc h a).getD [])) := by
  have hfa : freshAddr h ≠ a := fun he => freshAddr_not_mem h (he ▸ hlive)
  refine ⟨?_, hfa, ?_, ?_, ?_⟩
  · simp [saveH, lookupAssoc_updateAssoc_self]
  · intro now2 h2
    have hng : ¬ now2 - now > mc.ttl := by omega
    simp [loadH, saveH, lookupAssoc_updateAssoc_self, hng]
  · intro k v
    simp [saveH, mutateH, derefH, updateAssoc, lookupAssoc, hfa]
  · simp [saveH, derefH, lookupAssoc]

/-- Heap for the C3 counterexample and witness: the caller's live state
`{"k": "a"}` is the dict object at address `0`. -/
def c3h0 : Heap := [(0, [("k", .str "a")])]

/-- The empty reference-level checkpointer the C3 scenario starts
from. -/
def c3mc0 : HeapCheckpointer := ⟨[], [], 3600⟩

/-- Counterexample to C3 as stated: after `save("t", live)`, `load("t")`
returns the stored object (address 1), whose snapshot reads
`{"k": "a"}`; mutating that loaded object in place makes a subsequent
`load("t")` — still address 1 — read `{"k": "b"}`, so mutation of a
value returned by `load` does change what a later `load` returns. -/
theorem claim_C3_counterexample :
    (loadH (saveH c3h0 c3mc0 0 "t" 0).2 0 "t").1 = some 1 ∧
    derefH (saveH c3h0 c3mc0 0 "t" 0).1 1 = some [("k", JValue.str "a")] ∧
    derefH (mutateH (saveH c3h0 c3mc0 0 "t" 0).1 1 "k" (.str "b")) 1 =
      some [("k", JValue.str "b")] ∧
    (some [("k", JValue.str "b")] : Option State) ≠ some [("k", JValue.str "a")] :=
  ⟨rfl, rfl, rfl, by decide⟩

/-- Witness for C3 (amended): concretely, the snapshot of `{"k": "a"}`
is stored at the fresh address 1, and mutating the live dict at address
0 leaves the snapshot unchanged. -/
theorem claim_C3_witness :
    lookupAssoc (saveH c3h0 c3mc0 0 "t" 0).2.store "t" = some 1 ∧
    derefH (mutateH (saveH c3h0 c3mc0 0 "t" 0).1 0 "z" (.int 9)) 1 =
      derefH (saveH c3h0 c3mc0 0 "t" 0).1 1 := by
  have h := claim_C3_theorem c3h0 c3mc0 0 "t" 0 (by decide)
  exact ⟨h.1, h.2.2.2.1 "z" (.int 9)⟩

/-- C4 amended: `execute` never lets an exception of the nested run
escape: a run that raises `e` yields `{"success": False, "error":
str(e)}`; a successful run yields `{"success": True, "result": ...}`
with the result filtered to `return_keys` when that list is given and
non-empty, and the full resulting state when `return_keys` is absent —
or, contrary to the claim, when it is the empty list, which Python
truthiness treats like absence. -/
theorem claim_C4_theorem (ex : SubgraphExecutor) (fuel now : Nat)
    (initial_state : State) (ik rk : Option (List String)) (ps : Option State) :
    (∀ e : Exc,
      (ex.graph.run fuel (isolatedState initial_state ik ps) ex.checkpointer now).outcome =
        .exc e →
      ex.execute fuel now initial_state ik rk ps = .record false none (some e.msg)) ∧
    (∀ (st : State) (ks : List String),
      (ex.graph.run fuel (isolatedState initial_state ik ps) ex.checkpointer now).outcome =
        .ok st →
      rk = some ks → ks ≠ [] →
      ex.execute fuel now initial_state ik rk ps =
        .record true (some (filterKeys st ks)) none) ∧
    (∀ st : State,
      (ex.graph.run fuel (isolatedState initial_state ik ps) ex.checkpointer now).outcome =
        .ok st →
      (rk = none ∨ rk = some ([] : List String)) →
      ex.execute fuel now initial_state ik rk ps = .record true (some st) none) := by
  refine ⟨?_, ?_, ?_⟩
  · intro e he
    simp [SubgraphExecutor.execute, he]
  · intro st ks hok hrk hks
    subst hrk
    simp [SubgraphExecutor.execute, hok, hks]
  · intro st hok hrk
    rcases hrk with hrk | hrk <;> subst hrk <;> simp [SubgraphExecutor.execute, hok]

/-- Graph for the C4 counterexample: one node returning its state
unchanged. -/
def c4g : StateGraph :=
  { nodes := [("n", ⟨"n", fun s => .ok s, none, "error"⟩)]
    edges := [⟨"n", some "END", none⟩]
    entry_point := some "n" }

/-- The C4 counterexample executor. -/
def c4ex : SubgraphExecutor := ⟨c4g, none⟩

/-- Counterexample to C4 as stated: with `return_keys = []` — a
specified list — a successful `execute` returns the full resulting
state, not the restriction to `[]` (which would be the empty dict). -/
theorem claim_C4_counterexample :
    SubgraphExecutor.execute c4ex 5 0 [("x", .int 1)] none (some []) none =
      .record true (some [("x", JValue.int 1), ("_current_node", JValue.str "n"),
        ("_node_status", JValue.str "success")]) none ∧
    filterKeys [("x", JValue.int 1), ("_current_node", JValue.str "n"),
      ("_node_status", JValue.str "success")] [] = [] ∧
    ([("x", JValue.int 1), ("_current_node", JValue.str "n"),
      ("_node_status", JValue.str "success")] : State) ≠ [] :=
  ⟨rfl, rfl, by decide⟩

/-- The failure raised inside the C4 witness subgraph. -/
def c4wboom : Exc := ⟨["RuntimeError", "Exception", "BaseException"], "subgraph boom"⟩

/-- Graph for the C4 witness: its only node always fails with policy
propagate. -/
def c4wg : StateGraph :=
  { nodes := [("f", ⟨"f", fun _ => .error c4wboom, none, "error"⟩)]
    edges := [⟨"f", some "END", none⟩]
    entry_point := some "f" }

/-- The C4 witness executor. -/
def c4wex : SubgraphExecutor := ⟨c4wg, none⟩

/-- Witness for C4 (amended): a subgraph whose only node always fails
yields the failure record — no exception escapes `execute`. -/
theorem claim_C4_witness :
    SubgraphExecutor.execute c4wex 5 0 [("q", .str "x")] none none none =
      .record false none (some "subgraph boom") :=
  (claim_C4_theorem c4wex 5 0 [("q", .str "x")] none none none).1 c4wboom rfl

end BioQuery
